import Mathlib

/-!
Verification of `ops/docker/scripts/dashboard-sync.py`.

The script validates two preconditions (an environment variable holding a
credential, and a writable destination directory), then for each entry of a
hardcoded descriptor list performs an HTTP GET, applies three literal string
substitutions, and writes the result to a file.  Text is modelled as
`List Char` (Python `str` is a sequence of code points); the interaction with
the environment (environment variable, filesystem checks, network fetches,
file writes) is modelled by an explicit `Env` record, and one run of the
script by a pure function `runScript : Env → Outcome`.
-/

/-- Text as a list of code points, matching Python `str`. -/
abbrev Text := List Char

/-- `leadsWith pat s` is true when `pat` is an initial segment of `s`
(the check `s.startswith(pat)` performed by Python `str.replace` at each
scan position). -/
def leadsWith : Text → Text → Bool
  | [], _ => true
  | _ :: _, [] => false
  | p :: ps, c :: cs => if p = c then leadsWith ps cs else false

/-- `occurs pat s` is true when `pat` occurs as a contiguous substring of
`s` (Python `pat in s`). -/
def occurs (pat : Text) : Text → Bool
  | [] => pat.isEmpty
  | c :: rest => leadsWith pat (c :: rest) || occurs pat rest

/-- Worker for `replaceAll`.  The first numeric argument counts characters
of an already-matched pattern occurrence that remain to be consumed without
being scanned again. -/
def replAux (pat rep : Text) : Nat → Text → Text
  | _, [] => []
  | k + 1, _ :: rest => replAux pat rep k rest
  | 0, c :: rest =>
    if leadsWith pat (c :: rest) && !pat.isEmpty then
      rep ++ replAux pat rep (pat.length - 1) rest
    else
      c :: replAux pat rep 0 rest

/-- Python `s.replace(pat, rep)` for a nonempty `pat`: scan left to right;
on a match consume the whole pattern and emit `rep` (the inserted `rep` is
not rescanned), otherwise emit one character and continue.  The script only
ever calls `replace` with nonempty literal patterns, so the empty-pattern
case (where Python interleaves `rep` between characters) is irrelevant; for
`pat = []` this definition is the identity. -/
def replaceAll (pat rep : Text) (s : Text) : Text :=
  replAux pat rep 0 s

/-- The placeholder token `${DS_INFLUXDB}` (line 34 of the script). -/
def tokDS : Text := "${DS_INFLUXDB}".toList

/-- The generic title substring `Geth Dashboard` (line 35). -/
def tokTitle : Text := "Geth Dashboard".toList

/-- The fixed identifier `QC1Arp5Wk` (line 36). -/
def tokQC : Text := "QC1Arp5Wk".toList

/-- The three-step substitution applied to a downloaded body (lines 34-36):
`data = decoded_html.replace('${DS_INFLUXDB}', replacement)`, then
`data = data.replace("Geth Dashboard", name)`, then
`data = data.replace("QC1Arp5Wk", "QC1Arp5Wk" + replacement)`. -/
def substitute (repl nm : Text) (s : Text) : Text :=
  replaceAll tokQC (tokQC ++ repl) (replaceAll tokTitle nm (replaceAll tokDS repl s))

/-- A decomposition of a downloaded text into literal chunks and marked
occurrences of the three tokens — in arbitrary number and arbitrary order.
Every text is `flattenWith pieceSrc` of such a list, with one marker per
token occurrence. -/
inductive Piece
  | lit (s : Text)
  | ds
  | title
  | qc
deriving DecidableEq, Repr

/-- The decomposed text itself: each marker renders as its token. -/
def pieceSrc : Piece → Text
  | Piece.lit s => s
  | Piece.ds => tokDS
  | Piece.title => tokTitle
  | Piece.qc => tokQC

/-- Rendering after line 34: every placeholder occurrence replaced by
`repl`, everything else as in the input. -/
def pieceMid1 (repl : Text) : Piece → Text
  | Piece.lit s => s
  | Piece.ds => repl
  | Piece.title => tokTitle
  | Piece.qc => tokQC

/-- Rendering after line 35: title occurrences also replaced by `nm`. -/
def pieceMid2 (repl nm : Text) : Piece → Text
  | Piece.lit s => s
  | Piece.ds => repl
  | Piece.title => nm
  | Piece.qc => tokQC

/-- Rendering after line 36 — the text the specification promises: every
placeholder occurrence is `repl`, every title occurrence is `nm`, every
identifier occurrence is the identifier concatenated with `repl`, and
every literal chunk is unchanged byte-for-byte. -/
def pieceOut (repl nm : Text) : Piece → Text
  | Piece.lit s => s
  | Piece.ds => repl
  | Piece.title => nm
  | Piece.qc => tokQC ++ repl

/-- Marker test for placeholder occurrences. -/
def isDS : Piece → Bool
  | Piece.ds => true
  | _ => false

/-- Marker test for title occurrences. -/
def isTitle : Piece → Bool
  | Piece.title => true
  | _ => false

/-- Marker test for identifier occurrences. -/
def isQC : Piece → Bool
  | Piece.qc => true
  | _ => false

/-- Concatenation of the rendering of each piece. -/
def flattenWith (g : Piece → Text) : List Piece → Text
  | [] => []
  | p :: rest => g p ++ flattenWith g rest

/-- Join a list of segments with a separator between consecutive ones. -/
def joinWith (sep : Text) : List Text → Text
  | [] => []
  | [s] => s
  | s :: s2 :: rest => s ++ sep ++ joinWith sep (s2 :: rest)

/-- The gap texts between consecutive markers selected by `isTok`,
rendering non-selected pieces with `f`.  `joinWith`-ing the gaps with the
token (resp. with its replacement) recovers the text before (resp. after)
the corresponding pass. -/
def splitAt (isTok : Piece → Bool) (f : Piece → Text) : List Piece → List Text
  | [] => [[]]
  | p :: rest =>
    if isTok p then
      [] :: splitAt isTok f rest
    else
      match splitAt isTok f rest with
      | [] => [f p]
      | s :: ss => (f p ++ s) :: ss

/-- `sepFree pat ss` holds when no occurrence of `pat` starts inside a
segment of `ss` (for a non-final segment, also none crossing into the
separator that follows it): the marked occurrences are the only ones. -/
def sepFree (pat : Text) : List Text → Bool
  | [] => true
  | [s] => !occurs pat s
  | s :: s2 :: rest => !occurs pat (s ++ pat.dropLast) && sepFree pat (s2 :: rest)

/-- One entry of `dashboard_list` (lines 5-18 of the script). -/
structure Descriptor where
  name : Text
  filename : Text
  url : Text
  replacement : Text
deriving DecidableEq, Repr

/-- The hardcoded `dashboard_list` of the script (lines 5-18). -/
def dashboard_list : List Descriptor :=
  [ { name := "Geth Dashboard Ethereum".toList,
      filename := "single_geth_eth.json".toList,
      url := "https://grafana.com/api/dashboards/13877/revisions/1/download".toList,
      replacement := "InfluxDB_eth".toList },
    { name := "Geth Dashboard Optimism".toList,
      filename := "single_geth_opt.json".toList,
      url := "https://grafana.com/api/dashboards/13877/revisions/1/download".toList,
      replacement := "InfluxDB".toList } ]

/-- `dashboard_path = "/grafana-dashboards"` (line 19). -/
def dashboard_path : Text := "/grafana-dashboards".toList

/-- Python `template.format(arg)` restricted to what the script exercises:
the first replacement field `\x7b\x7d` in the template, if any, is filled
with `arg`; all other characters are copied unchanged.  The template of
line 27 is a `%`-style string that contains no brace at all, so `format`
returns it verbatim. -/
def formatOne (arg : Text) : Text → Text
  | [] => []
  | '\x7b' :: '\x7d' :: rest => arg ++ rest
  | c :: rest => c :: formatOne arg rest

/-- The message of line 23. -/
def credMissingMsg : Text :=
  "GF_SECURITY_ADMIN_PASSWORD env value is missing, exiting.".toList

/-- The `%`-style template of line 27, on which the script calls `.format`. -/
def pathDiagTemplate : Text :=
  "Dashboard path %s is not writable, exiting".toList

/-- The diagnostic actually printed by line 27:
`'Dashboard path %s is not writable, exiting'.format(dashboard_path)`. -/
def pathDiag : Text := formatOne dashboard_path pathDiagTemplate

/-- How the process terminates.  `sysExit c` would be a controlled
`sys.exit(c)`; the script never reaches it because the module `sys` is not
imported (lines 2-3 import only `os` and `urllib.request`), so evaluating
`sys.exit(1)` on lines 24 and 28 raises an uncaught `NameError`, modelled
by `nameError`.  `fetchCrash` models an uncaught exception escaping the
download loop (network error, non-UTF-8 body, or write failure). -/
inductive ExitKind
  | success
  | sysExit (code : Nat)
  | nameError
  | fetchCrash
deriving DecidableEq, Repr

/-- The process exit status: 0 on normal termination, the chosen code for a
controlled `sys.exit`, and the interpreter default 1 for an uncaught
exception. -/
def exitCode : ExitKind → Nat
  | ExitKind.success => 0
  | ExitKind.sysExit c => c
  | ExitKind.nameError => 1
  | ExitKind.fetchCrash => 1

/-- Whether a termination is a controlled `sys.exit` call. -/
def isSysExit : ExitKind → Bool
  | ExitKind.sysExit _ => true
  | _ => false

/-- The environment one run of the script observes: the value of
`GF_SECURITY_ADMIN_PASSWORD` (`none` when unset, matching
`os.environ.get`), the three checks of line 26 on `dashboard_path`, the
network (`fetch url = none` models a failed GET / undecodable body), and
whether a write to a given filename succeeds. -/
structure Env where
  gfPassword : Option Text
  pathExists : Bool
  pathIsDir : Bool
  pathWritable : Bool
  fetch : Text → Option Text
  writeOk : Text → Bool

/-- Result of the download loop: URLs requested in order, files written in
order (filename, content), and how the loop ended. -/
structure LoopResult where
  requests : List Text
  writes : List (Text × Text)
  exitKind : ExitKind
deriving DecidableEq, Repr

/-- `descOk e d` holds when descriptor `d` is processed without an
exception: the fetch of `d.url` succeeds and the write to `d.filename`
succeeds. -/
def descOk (e : Env) (d : Descriptor) : Bool :=
  (e.fetch d.url).isSome && e.writeOk d.filename

/-- The body fetched for descriptor `d` (meaningful when the fetch
succeeds). -/
def getBody (e : Env) (d : Descriptor) : Text :=
  (e.fetch d.url).getD []

/-- The loop of lines 30-39: for each descriptor in order, GET the url,
decode, substitute, and write `d.filename`.  A failed fetch or a failed
write raises, aborting the loop: the remaining descriptors are not
processed, already-performed writes stay recorded. -/
def processList (e : Env) : List Descriptor → LoopResult
  | [] => ⟨[], [], ExitKind.success⟩
  | d :: rest =>
    match e.fetch d.url with
    | none => ⟨[d.url], [], ExitKind.fetchCrash⟩
    | some body =>
      if e.writeOk d.filename then
        let r := processList e rest
        ⟨d.url :: r.requests,
         (d.filename, substitute d.replacement d.name body) :: r.writes,
         r.exitKind⟩
      else
        ⟨[d.url], [], ExitKind.fetchCrash⟩

/-- Observable outcome of one run: termination kind, network requests made,
files written (in order), and messages printed. -/
structure Outcome where
  exitKind : ExitKind
  requests : List Text
  writes : List (Text × Text)
  messages : List Text
deriving DecidableEq, Repr

/-- One run of the script (lines 21-39).  Line 21 reads the environment
variable; line 22 tests `is None`; lines 23-24 print and then hit the
unresolved name `sys`; line 26 tests the three path conditions; lines
27-28 print the formatted template and hit `sys` again; lines 30-39 run
the download loop. -/
def runScript (e : Env) : Outcome :=
  match e.gfPassword with
  | none => ⟨ExitKind.nameError, [], [], [credMissingMsg]⟩
  | some _ =>
    if !e.pathExists || !e.pathIsDir || !e.pathWritable then
      ⟨ExitKind.nameError, [], [], [pathDiag]⟩
    else
      let r := processList e dashboard_list
      ⟨r.exitKind, r.requests, r.writes, []⟩

/-- Overwriting file-system update: a write with mode `'w'` (line 37)
replaces any previous content of the file. -/
def fsWrite (fs : Text → Option Text) (fname content : Text) : Text → Option Text :=
  fun f => if f = fname then some content else fs f

/-- Apply a list of writes, in order, to an initial file system. -/
def fsAfter (fs : Text → Option Text) : List (Text × Text) → (Text → Option Text)
  | [] => fs
  | (g, c) :: rest => fsAfter (fsWrite fs g c) rest

/-- First-some choice between an optional new content and a base value. -/
def overlay (o : Option Text) (base : Option Text) : Option Text :=
  match o with
  | some c => some c
  | none => base

/-- The content of the last write to `f` in the write list, if any. -/
def lookupLast (ws : List (Text × Text)) (f : Text) : Option Text :=
  match ws with
  | [] => none
  | (g, c) :: rest => overlay (lookupLast rest f) (if f = g then some c else none)

/-- A sample fetched body used by concrete instantiations. -/
def sampleBody : Text := "body".toList

/-- An environment in which both gates pass and every descriptor
succeeds. -/
def envAllOk : Env :=
  { gfPassword := some "pw".toList,
    pathExists := true,
    pathIsDir := true,
    pathWritable := true,
    fetch := fun _ => some sampleBody,
    writeOk := fun _ => true }

/-- `envAllOk` with the credential set to the empty string. -/
def envEmptyPw : Env := { envAllOk with gfPassword := some [] }

/-- `envAllOk` with the credential unset. -/
def envNoPw : Env := { envAllOk with gfPassword := none }

/-- `envAllOk` with a missing destination directory. -/
def envNoDir : Env := { envAllOk with pathExists := false }

/-- `envAllOk` except that the write of the second descriptor's file
fails. -/
def envFailWrite2 : Env :=
  { envAllOk with writeOk := fun f => !(f = "single_geth_opt.json".toList : Bool) }

/-! ### Lemmas about `leadsWith`, `occurs` and `replaceAll` -/

theorem occurs_cons (pat : Text) (c : Char) (s : Text) :
    occurs pat (c :: s) = (leadsWith pat (c :: s) || occurs pat s) := rfl

theorem leadsWith_self_append (p v : Text) : leadsWith p (p ++ v) = true := by
  induction p with
  | nil => simp [leadsWith]
  | cons a as ih => simp [leadsWith, ih]

theorem leadsWith_iff_take (pat : Text) :
    ∀ s, leadsWith pat s = true ↔ s.take pat.length = pat := by
  induction pat with
  | nil => intro s; simp [leadsWith]
  | cons p ps ih =>
    intro s
    cases s with
    | nil => simp [leadsWith]
    | cons c cs =>
      by_cases h : p = c
      · subst h
        simp [leadsWith, ih]
      · simp [leadsWith, h, eq_comm]

theorem replAux_skip (pat rep : Text) :
    ∀ (s : Text) (k : Nat), replAux pat rep k s = replAux pat rep 0 (s.drop k) := by
  intro s
  induction s with
  | nil => intro k; cases k <;> simp [replAux]
  | cons c cs ih =>
    intro k
    cases k with
    | zero => simp
    | succ j => simpa [replAux] using ih j

theorem replaceAll_cons (pat rep : Text) (c : Char) (rest : Text) :
    replaceAll pat rep (c :: rest) =
      if leadsWith pat (c :: rest) && !pat.isEmpty then
        rep ++ replaceAll pat rep (rest.drop (pat.length - 1))
      else
        c :: replaceAll pat rep rest := by
  have h := replAux_skip pat rep rest (pat.length - 1)
  show replAux pat rep 0 (c :: rest) = _
  simp only [replAux]
  rw [h]
  rfl

theorem replaceAll_no_occ (pat rep : Text) :
    ∀ s, occurs pat s = false → replaceAll pat rep s = s := by
  intro s
  induction s with
  | nil => intro _; rfl
  | cons c cs ih =>
    intro h
    rw [occurs_cons, Bool.or_eq_false_iff] at h
    rw [replaceAll_cons, h.1]
    simp [ih h.2]

theorem replaceAll_split (pat rep : Text) (hne : pat ≠ []) :
    ∀ (u v : Text), occurs pat (u ++ pat.dropLast) = false →
      replaceAll pat rep (u ++ pat ++ v) = u ++ rep ++ replaceAll pat rep v := by
  intro u
  induction u with
  | nil =>
    intro v _
    cases pat with
    | nil => exact absurd rfl hne
    | cons p ps =>
      have hl : leadsWith (p :: ps) ((p :: ps) ++ v) = true := leadsWith_self_append _ _
      rw [List.cons_append] at hl
      rw [List.nil_append, List.cons_append, replaceAll_cons, hl]
      simp only [List.isEmpty, Bool.not_false, Bool.and_true, if_true, List.nil_append]
      have : (p :: ps).length - 1 = ps.length := by simp
      rw [this, List.drop_left]
  | cons a u' ih =>
    intro v h
    rw [List.cons_append] at h
    rw [occurs_cons, Bool.or_eq_false_iff] at h
    have hlen1 : 1 ≤ pat.length := List.length_pos.mpr hne
    have hlead : leadsWith pat (a :: (u' ++ (pat ++ v))) = false := by
      cases hl : leadsWith pat (a :: (u' ++ (pat ++ v))) with
      | false => rfl
      | true =>
        exfalso
        have htake := (leadsWith_iff_take pat _).mp hl
        have e1 : a :: (u' ++ (pat ++ v)) =
            ((a :: u') ++ pat.dropLast) ++ ([pat.getLast hne] ++ v) := by
          conv_lhs => rw [← List.dropLast_append_getLast hne]
          simp [List.append_assoc]
        have hlen : pat.length ≤ ((a :: u') ++ pat.dropLast).length := by
          simp [List.length_dropLast]
          omega
        have htake2 : ((a :: u') ++ pat.dropLast).take pat.length = pat := by
          rw [e1, List.take_append_of_le_length hlen] at htake
          exact htake
        have hl2 : leadsWith pat ((a :: u') ++ pat.dropLast) = true :=
          (leadsWith_iff_take pat _).mpr htake2
        rw [List.cons_append] at hl2
        simp [h.1] at hl2
    have hocc' : occurs pat (u' ++ pat.dropLast) = false := h.2
    simp only [List.cons_append, List.append_assoc]
    rw [replaceAll_cons, hlead]
    simp only [Bool.false_and, if_false]
    rw [← List.append_assoc, ih v hocc']
    simp [List.append_assoc]

/-! ### Lemmas about the download loop and the file-system model -/

theorem processList_all_ok (e : Env) :
    ∀ l : List Descriptor, (∀ d ∈ l, descOk e d = true) →
      processList e l =
        ⟨l.map (fun d => d.url),
         l.map (fun d => (d.filename, substitute d.replacement d.name (getBody e d))),
         ExitKind.success⟩ := by
  intro l
  induction l with
  | nil => intro _; rfl
  | cons d rest ih =>
    intro h
    have hd : descOk e d = true := h d (List.mem_cons_self d rest)
    have hrest : ∀ d' ∈ rest, descOk e d' = true :=
      fun d' hm => h d' (List.mem_cons_of_mem d hm)
    rw [descOk, Bool.and_eq_true] at hd
    obtain ⟨body, hb⟩ := Option.isSome_iff_exists.mp hd.1
    simp only [processList, hb, hd.2, if_true]
    rw [ih hrest]
    simp [getBody, hb]

theorem lookupLast_not_mem (ws : List (Text × Text)) (f : Text) :
    f ∉ ws.map Prod.fst → lookupLast ws f = none := by
  induction ws with
  | nil => intro _; rfl
  | cons gc rest ih =>
    intro h
    obtain ⟨g, c⟩ := gc
    simp only [List.map_cons, List.mem_cons] at h
    push_neg at h
    simp only [lookupLast]
    rw [ih h.2]
    simp [overlay, h.1]

theorem lookupLast_mem_isSome (ws : List (Text × Text)) (f : Text) :
    f ∈ ws.map Prod.fst → (lookupLast ws f).isSome = true := by
  induction ws with
  | nil => intro h; simp at h
  | cons gc rest ih =>
    intro h
    obtain ⟨g, c⟩ := gc
    simp only [lookupLast]
    cases hr : lookupLast rest f with
    | some c2 => simp [overlay]
    | none =>
      simp only [List.map_cons, List.mem_cons] at h
      cases h with
      | inl hfg => simp [overlay, hfg]
      | inr hm =>
        have := ih hm
        rw [hr] at this
        simp at this

theorem fsAfter_overlay :
    ∀ (ws : List (Text × Text)) (fs : Text → Option Text) (f : Text),
      fsAfter fs ws f = overlay (lookupLast ws f) (fs f) := by
  intro ws
  induction ws with
  | nil => intro fs f; rfl
  | cons gc rest ih =>
    intro fs f
    obtain ⟨g, c⟩ := gc
    show fsAfter (fsWrite fs g c) rest f = _
    rw [ih]
    simp only [lookupLast]
    cases hr : lookupLast rest f with
    | some c2 => simp [overlay]
    | none => by_cases hfg : f = g <;> simp [overlay, fsWrite, hfg]

theorem lookupLast_map_get (g : Descriptor → Text) :
    ∀ (l : List Descriptor) (j : Nat) (hj : j < l.length),
      (l.map (fun d => d.filename)).Nodup →
      lookupLast (l.map (fun d => (d.filename, g d))) ((l.get ⟨j, hj⟩).filename)
        = some (g (l.get ⟨j, hj⟩)) := by
  intro l
  induction l with
  | nil => intro j hj _; simp at hj
  | cons d rest ih =>
    intro j hj hnd
    rw [List.map_cons, List.nodup_cons] at hnd
    cases j with
    | zero =>
      have hget : (d :: rest).get ⟨0, hj⟩ = d := rfl
      simp only [hget, List.map_cons, lookupLast]
      have hnone : lookupLast (rest.map (fun d => (d.filename, g d))) d.filename = none := by
        apply lookupLast_not_mem
        simpa [List.map_map, Function.comp] using hnd.1
      rw [hnone]
      simp [overlay]
    | succ i =>
      have hi : i < rest.length := by simpa using hj
      simp only [List.get_cons_succ, List.map_cons, lookupLast]
      rw [ih i hi hnd.2]
      simp [overlay]

/-! ### Lemmas about piece decompositions -/

theorem splitAt_ne_nil (isTok : Piece → Bool) (f : Piece → Text) :
    ∀ ps : List Piece, splitAt isTok f ps ≠ [] := by
  intro ps
  induction ps with
  | nil => simp [splitAt]
  | cons p rest ih =>
    by_cases h : isTok p = true
    · simp [splitAt, h]
    · cases hs : splitAt isTok f rest with
      | nil => exact absurd hs ih
      | cons s ss => simp [splitAt, h, hs]

theorem joinWith_splitAt (isTok : Piece → Bool) (f : Piece → Text) (tok : Text) :
    ∀ ps : List Piece,
      joinWith tok (splitAt isTok f ps)
        = flattenWith (fun p => if isTok p then tok else f p) ps := by
  intro ps
  induction ps with
  | nil => rfl
  | cons p rest ih =>
    cases hs : splitAt isTok f rest with
    | nil => exact absurd hs (splitAt_ne_nil isTok f rest)
    | cons s ss =>
      rw [hs] at ih
      by_cases h : isTok p = true
      · show joinWith tok (splitAt isTok f (p :: rest)) = _
        simp only [splitAt, h, if_true, hs]
        show [] ++ tok ++ joinWith tok (s :: ss) = _
        rw [ih]
        show tok ++ flattenWith _ rest = _
        simp [flattenWith, h]
      · show joinWith tok (splitAt isTok f (p :: rest)) = _
        simp only [splitAt, h, if_false, hs]
        cases ss with
        | nil =>
          show f p ++ s = _
          simp only [joinWith] at ih
          simp [flattenWith, h, ← ih]
        | cons s2 ss2 =>
          show (f p ++ s) ++ tok ++ joinWith tok (s2 :: ss2) = _
          have : flattenWith (fun p => if isTok p then tok else f p) (p :: rest)
              = f p ++ flattenWith (fun p => if isTok p then tok else f p) rest := by
            simp [flattenWith, h]
          rw [this, ← ih]
          show _ = f p ++ joinWith tok (s :: s2 :: ss2)
          simp [joinWith, List.append_assoc]

theorem flattenWith_congr (g1 g2 : Piece → Text) (hg : ∀ p, g1 p = g2 p) :
    ∀ ps : List Piece, flattenWith g1 ps = flattenWith g2 ps := by
  intro ps
  induction ps with
  | nil => rfl
  | cons p rest ih =>
    show g1 p ++ flattenWith g1 rest = g2 p ++ flattenWith g2 rest
    rw [hg p, ih]

theorem replaceAll_joinWith (pat rep : Text) (hne : pat ≠ []) :
    ∀ ss : List Text, sepFree pat ss = true →
      replaceAll pat rep (joinWith pat ss) = joinWith rep ss := by
  intro ss
  induction ss with
  | nil => intro _; rfl
  | cons s ss2 ih =>
    cases ss2 with
    | nil =>
      intro h
      simp only [sepFree, Bool.not_eq_true'] at h
      exact replaceAll_no_occ pat rep s h
    | cons s2 ss3 =>
      intro h
      simp only [sepFree, Bool.and_eq_true, Bool.not_eq_true'] at h
      show replaceAll pat rep (s ++ pat ++ joinWith pat (s2 :: ss3))
        = s ++ rep ++ joinWith rep (s2 :: ss3)
      rw [replaceAll_split pat rep hne s _ h.1, ih h.2]

/-! ### The claims -/

/-- Claim C1: for every descriptor of `dashboard_list` and every downloaded
text — presented as an arbitrary decomposition `ps` into literal chunks and
marked token occurrences, in any number and any order — the text produced
by the substitution chain equals the input with **every** occurrence of the
placeholder replaced by the descriptor's `replacement`, **every**
occurrence of the title substring replaced by its `name`, and **every**
occurrence of the identifier replaced by the identifier concatenated with
the `replacement`, with all other text unchanged byte-for-byte
(`pieceOut`).  The hypotheses say exactly that the markers are exhaustive:
at each of the three stages no unmarked occurrence of the token being
replaced starts inside a gap (`sepFree` over the gap texts) — the claim's
premise that the enumerated occurrences are the occurrences. -/
theorem C1_substitution_correct (d : Descriptor) (_hd : d ∈ dashboard_list)
    (ps : List Piece)
    (h1 : sepFree tokDS (splitAt isDS pieceSrc ps) = true)
    (h2 : sepFree tokTitle (splitAt isTitle (pieceMid1 d.replacement) ps) = true)
    (h3 : sepFree tokQC (splitAt isQC (pieceMid2 d.replacement d.name) ps) = true) :
    substitute d.replacement d.name (flattenWith pieceSrc ps)
      = flattenWith (pieceOut d.replacement d.name) ps := by
  have pass1 : replaceAll tokDS d.replacement (flattenWith pieceSrc ps)
      = flattenWith (pieceMid1 d.replacement) ps := by
    have eIn : joinWith tokDS (splitAt isDS pieceSrc ps) = flattenWith pieceSrc ps := by
      rw [joinWith_splitAt]
      exact flattenWith_congr _ _ (fun p => by cases p <;> rfl) ps
    have eOut : joinWith d.replacement (splitAt isDS pieceSrc ps)
        = flattenWith (pieceMid1 d.replacement) ps := by
      rw [joinWith_splitAt]
      exact flattenWith_congr _ _ (fun p => by cases p <;> rfl) ps
    rw [← eIn, ← eOut]
    exact replaceAll_joinWith tokDS d.replacement (by decide) _ h1
  have pass2 : replaceAll tokTitle d.name (flattenWith (pieceMid1 d.replacement) ps)
      = flattenWith (pieceMid2 d.replacement d.name) ps := by
    have eIn : joinWith tokTitle (splitAt isTitle (pieceMid1 d.replacement) ps)
        = flattenWith (pieceMid1 d.replacement) ps := by
      rw [joinWith_splitAt]
      exact flattenWith_congr _ _ (fun p => by cases p <;> rfl) ps
    have eOut : joinWith d.name (splitAt isTitle (pieceMid1 d.replacement) ps)
        = flattenWith (pieceMid2 d.replacement d.name) ps := by
      rw [joinWith_splitAt]
      exact flattenWith_congr _ _ (fun p => by cases p <;> rfl) ps
    rw [← eIn, ← eOut]
    exact replaceAll_joinWith tokTitle d.name (by decide) _ h2
  have pass3 : replaceAll tokQC (tokQC ++ d.replacement)
        (flattenWith (pieceMid2 d.replacement d.name) ps)
      = flattenWith (pieceOut d.replacement d.name) ps := by
    have eIn : joinWith tokQC (splitAt isQC (pieceMid2 d.replacement d.name) ps)
        = flattenWith (pieceMid2 d.replacement d.name) ps := by
      rw [joinWith_splitAt]
      exact flattenWith_congr _ _ (fun p => by cases p <;> rfl) ps
    have eOut : joinWith (tokQC ++ d.replacement) (splitAt isQC (pieceMid2 d.replacement d.name) ps)
        = flattenWith (pieceOut d.replacement d.name) ps := by
      rw [joinWith_splitAt]
      exact flattenWith_congr _ _ (fun p => by cases p <;> rfl) ps
    rw [← eIn, ← eOut]
    exact replaceAll_joinWith tokQC (tokQC ++ d.replacement) (by decide) _ h3
  rw [substitute, pass1, pass2, pass3]

/-- Witness for C1 at the first descriptor of `dashboard_list` and a
concrete downloaded text containing two occurrences of each of the three
tokens, interleaved out of order. -/
theorem C1_substitution_correct_witness :
    substitute "InfluxDB_eth".toList "Geth Dashboard Ethereum".toList
        (flattenWith pieceSrc
          [Piece.lit "A ".toList, Piece.ds, Piece.lit " B ".toList, Piece.title,
           Piece.lit " C ".toList, Piece.qc, Piece.lit " D ".toList, Piece.ds,
           Piece.lit " E ".toList, Piece.qc, Piece.lit " F ".toList, Piece.title,
           Piece.lit " G".toList])
      = flattenWith (pieceOut "InfluxDB_eth".toList "Geth Dashboard Ethereum".toList)
          [Piece.lit "A ".toList, Piece.ds, Piece.lit " B ".toList, Piece.title,
           Piece.lit " C ".toList, Piece.qc, Piece.lit " D ".toList, Piece.ds,
           Piece.lit " E ".toList, Piece.qc, Piece.lit " F ".toList, Piece.title,
           Piece.lit " G".toList] :=
  C1_substitution_correct
    { name := "Geth Dashboard Ethereum".toList,
      filename := "single_geth_eth.json".toList,
      url := "https://grafana.com/api/dashboards/13877/revisions/1/download".toList,
      replacement := "InfluxDB_eth".toList }
    (by decide)
    [Piece.lit "A ".toList, Piece.ds, Piece.lit " B ".toList, Piece.title,
     Piece.lit " C ".toList, Piece.qc, Piece.lit " D ".toList, Piece.ds,
     Piece.lit " E ".toList, Piece.qc, Piece.lit " F ".toList, Piece.title,
     Piece.lit " G".toList]
    (by decide) (by decide) (by decide)

/-- Claim C2 counterexample: with `GF_SECURITY_ADMIN_PASSWORD` set to the
empty string (so the claim's antecedent holds) and everything else healthy,
the run performs network requests and filesystem writes and exits 0 —
because line 22 tests `is None`, which the empty string does not satisfy. -/
theorem C2_empty_credential_counterexample :
    envEmptyPw.gfPassword = some [] ∧
    (runScript envEmptyPw).requests ≠ [] ∧
    (runScript envEmptyPw).writes ≠ [] ∧
    exitCode (runScript envEmptyPw).exitKind = 0 := by decide

/-- Claim C2 (amended): if `GF_SECURITY_ADMIN_PASSWORD` is unset, the run
performs zero network requests and zero filesystem writes, prints the
diagnostic of line 23, and exits non-zero.  (An empty-string value passes
the gate, since line 22 only tests `is None`.) -/
theorem C2_credential_gate_unset (e : Env) (h : e.gfPassword = none) :
    (runScript e).requests = [] ∧ (runScript e).writes = [] ∧
    (runScript e).messages = [credMissingMsg] ∧
    exitCode (runScript e).exitKind ≠ 0 := by
  simp [runScript, h, exitCode]

/-- Witness for the amended C2 at a concrete environment with the
credential unset. -/
theorem C2_credential_gate_unset_witness :
    envNoPw.gfPassword = none ∧
    ((runScript envNoPw).requests = [] ∧ (runScript envNoPw).writes = [] ∧
     (runScript envNoPw).messages = [credMissingMsg] ∧
     exitCode (runScript envNoPw).exitKind ≠ 0) :=
  ⟨rfl, C2_credential_gate_unset envNoPw rfl⟩

/-- Claim C3: if the credential is present but the destination path is
missing, not a directory, or not writable, the run performs zero network
requests and zero writes, prints a diagnostic, and exits non-zero. -/
theorem C3_directory_gate (e : Env) (hp : e.gfPassword.isSome = true)
    (h : e.pathExists = false ∨ e.pathIsDir = false ∨ e.pathWritable = false) :
    (runScript e).requests = [] ∧ (runScript e).writes = [] ∧
    (runScript e).messages = [pathDiag] ∧
    exitCode (runScript e).exitKind ≠ 0 := by
  obtain ⟨pw, hpw⟩ := Option.isSome_iff_exists.mp hp
  have hcond : (!e.pathExists || !e.pathIsDir || !e.pathWritable) = true := by
    rcases h with h | h | h <;> simp [h]
  simp [runScript, hpw, hcond, exitCode]

/-- Witness for C3 at a concrete environment whose destination directory
does not exist. -/
theorem C3_directory_gate_witness :
    (runScript envNoDir).requests = [] ∧ (runScript envNoDir).writes = [] ∧
    (runScript envNoDir).messages = [pathDiag] ∧
    exitCode (runScript envNoDir).exitKind ≠ 0 :=
  C3_directory_gate envNoDir rfl (Or.inl rfl)

/-- Claim C4: if the descriptor at position `i` fails (failed fetch/decode,
or failed write) and all earlier ones succeed, the loop result consists of
exactly the requests for positions `0..i` (the failing fetch attempt
included), the writes for positions `0..i-1` (left in place, no rollback),
and a crash — nothing is fetched, substituted or written for any later
position, and there is no retry. -/
theorem C4_abort_on_failure (e : Env) (l : List Descriptor) (i : Nat) (hi : i < l.length)
    (hok : ∀ d ∈ l.take i, descOk e d = true)
    (hfail : descOk e (l.get ⟨i, hi⟩) = false) :
    processList e l =
      ⟨(l.take (i + 1)).map (fun d => d.url),
       (l.take i).map (fun d => (d.filename, substitute d.replacement d.name (getBody e d))),
       ExitKind.fetchCrash⟩ := by
  induction l generalizing i with
  | nil => simp at hi
  | cons d rest ih =>
    cases i with
    | zero =>
      have hf : descOk e d = false := hfail
      rw [descOk] at hf
      cases hfetch : e.fetch d.url with
      | none => simp [processList, hfetch, List.take_succ_cons]
      | some body =>
        have hw : e.writeOk d.filename = false := by
          rw [hfetch] at hf
          simpa using hf
        simp [processList, hfetch, hw, List.take_succ_cons]
    | succ j =>
      have hd : descOk e d = true := hok d (by simp [List.take_succ_cons])
      rw [descOk, Bool.and_eq_true] at hd
      obtain ⟨body, hb⟩ := Option.isSome_iff_exists.mp hd.1
      have hi' : j < rest.length := by simpa using hi
      have hok' : ∀ d' ∈ rest.take j, descOk e d' = true := by
        intro d' hm
        exact hok d' (by simp [List.take_succ_cons, hm])
      have hfail' : descOk e (rest.get ⟨j, hi'⟩) = false := hfail
      simp only [processList, hb, hd.2, if_true]
      rw [ih j hi' hok' hfail']
      simp [List.take_succ_cons, getBody, hb]

/-- Witness for C4: in an environment where the write of the second
descriptor's file fails, the first descriptor's fetch and write happen and
stay, the second descriptor's fetch happens, and the loop crashes with no
further work. -/
theorem C4_abort_on_failure_witness :
    processList envFailWrite2 dashboard_list =
      ⟨(dashboard_list.take 2).map (fun d => d.url),
       (dashboard_list.take 1).map
         (fun d => (d.filename, substitute d.replacement d.name (getBody envFailWrite2 d))),
       ExitKind.fetchCrash⟩ :=
  C4_abort_on_failure envFailWrite2 dashboard_list 1 (by decide) (by decide) (by decide)

/-- Claim C5: with pairwise-distinct filenames and all descriptors
succeeding, the final content of the file of the descriptor at position `j`
is `substitute` of that descriptor's own `replacement` and `name` applied
to that descriptor's own fetched body — a function of its own fields and
body only, never altered by the processing of any other descriptor. -/
theorem C5_per_descriptor_isolation (e : Env) (l : List Descriptor) (j : Nat)
    (hj : j < l.length)
    (hok : ∀ d ∈ l, descOk e d = true)
    (hnd : (l.map (fun d => d.filename)).Nodup) :
    lookupLast (processList e l).writes ((l.get ⟨j, hj⟩).filename)
      = some (substitute (l.get ⟨j, hj⟩).replacement (l.get ⟨j, hj⟩).name
          (getBody e (l.get ⟨j, hj⟩))) := by
  rw [processList_all_ok e l hok]
  exact lookupLast_map_get
    (fun d => substitute d.replacement d.name (getBody e d)) l j hj hnd

/-- Witness for C5 at the second descriptor of the run's list. -/
theorem C5_per_descriptor_isolation_witness :
    lookupLast (processList envAllOk dashboard_list).writes
        ((dashboard_list.get ⟨1, by decide⟩).filename)
      = some (substitute (dashboard_list.get ⟨1, by decide⟩).replacement
          (dashboard_list.get ⟨1, by decide⟩).name
          (getBody envAllOk (dashboard_list.get ⟨1, by decide⟩))) :=
  C5_per_descriptor_isolation envAllOk dashboard_list 1 (by decide) (by decide) (by decide)

/-- Claim C6: writes use mode `'w'` (truncate-and-overwrite), so applying
the run's writes a second time changes nothing, and for any file the run
writes, the final content does not depend on what the file held before
(full replacement, never an append). -/
theorem C6_overwrite_and_idempotence (e : Env) (init init1 init2 : Text → Option Text)
    (f : Text) (hf : f ∈ (runScript e).writes.map Prod.fst) :
    fsAfter (fsAfter init (runScript e).writes) (runScript e).writes f
        = fsAfter init (runScript e).writes f ∧
    fsAfter init1 (runScript e).writes f = fsAfter init2 (runScript e).writes f := by
  have hsome := lookupLast_mem_isSome _ f hf
  obtain ⟨c, hc⟩ := Option.isSome_iff_exists.mp hsome
  constructor
  · rw [fsAfter_overlay, fsAfter_overlay, hc]
    simp [overlay]
  · rw [fsAfter_overlay, fsAfter_overlay, hc]
    simp [overlay]

/-- Witness for C6 on the first written file, with a pre-existing file
present in one initial state and absent in the other. -/
theorem C6_overwrite_and_idempotence_witness :
    fsAfter (fsAfter (fun _ => none) (runScript envAllOk).writes)
        (runScript envAllOk).writes "single_geth_eth.json".toList
      = fsAfter (fun _ => none) (runScript envAllOk).writes "single_geth_eth.json".toList ∧
    fsAfter (fun _ => some "old content".toList) (runScript envAllOk).writes
        "single_geth_eth.json".toList
      = fsAfter (fun _ => none) (runScript envAllOk).writes "single_geth_eth.json".toList :=
  C6_overwrite_and_idempotence envAllOk (fun _ => none)
    (fun _ => some "old content".toList) (fun _ => none)
    "single_geth_eth.json".toList (by decide)

/-- Claim C7: when both gates pass and every descriptor's fetch and write
succeed, the run terminates with exit code 0 having written exactly one
file per descriptor, named per that descriptor's `filename`, in list
order. -/
theorem C7_full_success (e : Env) (hp : e.gfPassword.isSome = true)
    (h1 : e.pathExists = true) (h2 : e.pathIsDir = true) (h3 : e.pathWritable = true)
    (hok : ∀ d ∈ dashboard_list, descOk e d = true) :
    exitCode (runScript e).exitKind = 0 ∧
    (runScript e).writes.map Prod.fst = dashboard_list.map (fun d => d.filename) := by
  obtain ⟨pw, hpw⟩ := Option.isSome_iff_exists.mp hp
  have hcond : (!e.pathExists || !e.pathIsDir || !e.pathWritable) = false := by
    simp [h1, h2, h3]
  simp only [runScript, hpw, hcond, Bool.false_eq_true, if_false]
  rw [processList_all_ok e dashboard_list hok]
  simp [exitCode, List.map_map, Function.comp]

/-- Witness for C7 at a fully healthy environment. -/
theorem C7_full_success_witness :
    exitCode (runScript envAllOk).exitKind = 0 ∧
    (runScript envAllOk).writes.map Prod.fst = dashboard_list.map (fun d => d.filename) :=
  C7_full_success envAllOk rfl rfl rfl rfl (by decide)

/-- Claim C8: two runs that differ only in the (present) value of the
credential have identical outcomes — same requests, same writes, same
messages, same exit status; the value is only tested against `None` on
line 22 and never used again. -/
theorem C8_credential_value_noninterference (e : Env) (pw1 pw2 : Text) :
    runScript { e with gfPassword := some pw1 }
      = runScript { e with gfPassword := some pw2 } := rfl

/-- Claim C9: when either gate fails, the termination is the uncaught
`NameError` from evaluating `sys.exit` with `sys` unimported — not a
controlled `sys.exit` — after printing exactly one diagnostic, and the
exit status (the interpreter's default for an unhandled exception) is
non-zero. -/
theorem C9_exit_via_nameError (e : Env)
    (h : e.gfPassword = none ∨
         (e.gfPassword ≠ none ∧
          (e.pathExists = false ∨ e.pathIsDir = false ∨ e.pathWritable = false))) :
    (runScript e).exitKind = ExitKind.nameError ∧
    isSysExit (runScript e).exitKind = false ∧
    exitCode (runScript e).exitKind ≠ 0 ∧
    (runScript e).messages.length = 1 := by
  have hek : (runScript e).exitKind = ExitKind.nameError ∧
      (runScript e).messages.length = 1 := by
    rcases h with h | ⟨hp, hgate⟩
    · simp [runScript, h]
    · cases hpw : e.gfPassword with
      | none => exact absurd hpw hp
      | some pw =>
        have hcond : (!e.pathExists || !e.pathIsDir || !e.pathWritable) = true := by
          rcases hgate with h | h | h <;> simp [h]
        simp [runScript, hpw, hcond]
  refine ⟨hek.1, ?_, ?_, hek.2⟩
  · rw [hek.1]
    rfl
  · rw [hek.1]
    simp [exitCode]

/-- Witness for C9 at a concrete environment with the credential unset. -/
theorem C9_exit_via_nameError_witness :
    (runScript envNoPw).exitKind = ExitKind.nameError ∧
    isSysExit (runScript envNoPw).exitKind = false ∧
    exitCode (runScript envNoPw).exitKind ≠ 0 ∧
    (runScript envNoPw).messages.length = 1 :=
  C9_exit_via_nameError envNoPw (Or.inl rfl)

/-- Claim C10: on a directory-gate failure the printed diagnostic is the
literal template with `%s` left uninterpolated — `str.format` on a
`%`-template with no brace fields returns it unchanged — so the actual
directory path never appears in the message. -/
theorem C10_diag_uninterpolated (e : Env) (hp : e.gfPassword.isSome = true)
    (h : e.pathExists = false ∨ e.pathIsDir = false ∨ e.pathWritable = false) :
    (runScript e).messages = [pathDiagTemplate] ∧
    occurs dashboard_path pathDiag = false ∧
    occurs "%s".toList pathDiag = true := by
  obtain ⟨pw, hpw⟩ := Option.isSome_iff_exists.mp hp
  have hcond : (!e.pathExists || !e.pathIsDir || !e.pathWritable) = true := by
    rcases h with h | h | h <;> simp [h]
  refine ⟨?_, by decide, by decide⟩
  have hmsg : (runScript e).messages = [pathDiag] := by
    simp [runScript, hpw, hcond]
  rw [hmsg]
  decide

/-- Witness for C10 at a concrete environment whose destination directory
does not exist. -/
theorem C10_diag_uninterpolated_witness :
    (runScript envNoDir).messages = [pathDiagTemplate] ∧
    occurs dashboard_path pathDiag = false ∧
    occurs "%s".toList pathDiag = true :=
  C10_diag_uninterpolated envNoDir rfl (Or.inl rfl)
